import Mathlib

/-!
# Incus database mapper: command front end and network forward records

A shallow embedding of

* `cmd/generate-database/db.go`: the `stmt` and `method` sub-commands of
  `generate-database db mapper` and `parseParams`;
* `internal/server/db/cluster/network_forwards.go`: the `NetworkForward`
  entity declaration with its generator directives, `ToAPI` and
  `UpdateNetworkForwardAPI`.

Go values are embedded as follows.  An `error` is a `GoError`, with `nil`
being `none` of `Option GoError`.  A `map[string]string` is an association
list with unique keys (`GoMap`), the `nil` map being `none` of
`Option GoMap`.  A slice is `Option (List _)`, `none` being the `nil` slice.
A pointer is an `Option`, `none` being `nil`.  A run of a Go function ends in
an `Outcome`: a normal return or a run-time panic.  Calls into code that is
not part of these two files are parameters of the embedding, and every call
is recorded in a trace.
-/

namespace Incus

/-! ## Go values -/

/-- Go `error` values, as built by `fmt.Errorf`: a plain message, or a
message wrapping an inner error with the `%w` verb. -/
inductive GoError where
  | errorf (msg : String)
  | wrapf (pre : String) (inner : GoError)
  deriving DecidableEq, Repr

namespace GoError

/-- The `Error()` text of an error: for a wrapping error the format text
followed by the text of the wrapped error. -/
def Error : GoError → String
  | errorf msg => msg
  | wrapf pre inner => pre ++ inner.Error

/-- The `Unwrap()` method: the wrapped error, if any. -/
def Unwrap : GoError → Option GoError
  | errorf _ => none
  | wrapf _ inner => some inner

end GoError

/-- How a run of a Go function ends: it returns a value or it panics. -/
inductive Outcome (α : Type) where
  | returned (a : α)
  | panicked
  deriving DecidableEq, Repr

/-- The result of running effectful Go code: how it ended, the state of the
outside world afterwards, and the calls it made, in order. -/
structure Exec (σ ε α : Type) where
  result : Outcome α
  state : σ
  trace : List ε

/-- A non-nil Go `map[string]string`: an association list, kept with unique
keys by `GoMap.set`. -/
abbrev GoMap := List (String × String)

namespace GoMap

/-- The map index expression `m[k]` with the comma-ok form: the value stored
under `k`, if any. -/
def get (m : GoMap) (k : String) : Option String :=
  match m with
  | [] => none
  | (k', v') :: rest => if k' = k then some v' else get rest k

/-- The map assignment `m[k] = v`: replaces the value stored under `k` or adds
a new entry. -/
def set (m : GoMap) (k v : String) : GoMap :=
  match m with
  | [] => [(k, v)]
  | (k', v') :: rest => if k' = k then (k, v) :: rest else (k', v') :: set rest k v

/-- The keys of the map. -/
def keys (m : GoMap) : List String := m.map Prod.fst

end GoMap

/-! ## `cmd/generate-database/db.go` -/

/-- The loop of `parseParams` over the remaining arguments, `config` being the
map built so far. -/
def parseParamsLoop (KeyValue : String → Except GoError (String × String)) :
    List String → GoMap → Option GoMap × Option GoError
  | [], config => (some config, none)
  | arg :: rest, config =>
    match KeyValue arg with
    | .error err => (none, some (.wrapf "Invalid config parameter: " err))
    | .ok (key, value) => parseParamsLoop KeyValue rest (config.set key value)

/-- The function `parseParams`.  `KeyValue` stands for `lex.KeyValue`; its
result `(key, value, err)` is `.ok (key, value)` when `err` is `nil` and
`.error err` otherwise. -/
def parseParams (KeyValue : String → Except GoError (String × String))
    (args : List String) : Option GoMap × Option GoError :=
  parseParamsLoop KeyValue args []

/-- The calls a mapper sub-command makes into the rest of the generator. -/
inductive Event (Pkg : Type) where
  | parseParams (args : List String)
  | packageLoad (pkg : String)
  | NewStmt (parsedPkg : Pkg) (entity kind : String) (config overrides : Option GoMap)
  | NewMethod (parsedPkg : Pkg) (entity kind : String) (config overrides : Option GoMap)
  | Append (entity target text : String) (iface : Bool)
  deriving DecidableEq, Repr

/-- The functions outside `db.go` that the sub-commands call: `lex.KeyValue`;
`build.Import` in `FindOnly` mode, giving the directory `Dir` of the package;
`os.Getwd`; `packages.Load` on one path, giving the list of packages loaded
(`Pkg` standing for `*packages.Package`); the `%q` verb of `fmt`;
`db.NewStmt`; `db.NewMethod`; and `file.Append`, which acts on the outside
world `σ` (the target files).  A result `(v, err)` is `.ok v` when `err` is
`nil` and `.error err` otherwise. -/
structure Collaborators (Pkg σ : Type) where
  KeyValue : String → Except GoError (String × String)
  buildImport : String → Except GoError String
  osGetwd : Except GoError String
  packagesLoad : String → Except GoError (List Pkg)
  quote : String → String
  NewStmt : Pkg → String → String → Option GoMap → Option GoMap → Except GoError String
  NewMethod : Pkg → String → String → Option GoMap → Option GoMap → Except GoError String
  Append : σ → String → String → String → Bool → Option GoError × σ

/-- The last two statements of `packageLoad`: `packages.Load` on `pkgPath`,
then `parsedPkg[0]`, which panics when the list loaded is empty. -/
def packageLoad.load {Pkg σ : Type} (c : Collaborators Pkg σ) (pkgPath : String) :
    Outcome (Except GoError Pkg) :=
  match c.packagesLoad pkgPath with
  | .error err => .returned (.error err)
  | .ok [] => .panicked
  | .ok (parsedPkg :: _) => .returned (.ok parsedPkg)

/-- The function `packageLoad`.  Its result `(p, err)` is `.ok p` when `err`
is `nil` and `.error err` otherwise. -/
def packageLoad {Pkg σ : Type} (c : Collaborators Pkg σ) (pkg : String) :
    Outcome (Except GoError Pkg) :=
  if pkg ≠ "" then
    match c.buildImport pkg with
    | .error err =>
      .returned (.error (.wrapf ("Invalid import path " ++ c.quote pkg ++ ": ") err))
    | .ok dir => packageLoad.load c dir
  else
    match c.osGetwd with
    | .error err => .returned (.error err)
    | .ok pkgPath => packageLoad.load c pkgPath

/-- The argument validator `cobra.MinimumNArgs(n)`. -/
def MinimumNArgs (n : Nat) (args : List String) : Option GoError :=
  if args.length < n then
    some (.errorf ("requires at least " ++ toString n ++ " arg(s), only received "
      ++ toString args.length))
  else none

/-- The `RunE` closure of `newDbMapperStmt`; `target`, `pkg` and `entity` are
the values of the flags `-t`, `-p` and `-e`. -/
def newDbMapperStmt.RunE {Pkg σ : Type} (c : Collaborators Pkg σ)
    (target pkg entity : String) (w : σ) (args : List String) :
    Exec σ (Event Pkg) (Option GoError) :=
  match args with
  | [] => ⟨.panicked, w, []⟩
  | kind :: rest =>
    if entity = "" then
      ⟨.returned (some (.errorf "No database entity given")), w, []⟩
    else
      match parseParams c.KeyValue rest with
      | (_, some err) => ⟨.returned (some err), w, [.parseParams rest]⟩
      | (config, none) =>
        match packageLoad c pkg with
        | .panicked => ⟨.panicked, w, [.parseParams rest, .packageLoad pkg]⟩
        | .returned (.error err) =>
          ⟨.returned (some err), w, [.parseParams rest, .packageLoad pkg]⟩
        | .returned (.ok parsedPkg) =>
          match c.NewStmt parsedPkg entity kind config (some []) with
          | .error err =>
            ⟨.returned (some err), w,
              [.parseParams rest, .packageLoad pkg,
               .NewStmt parsedPkg entity kind config (some [])]⟩
          | .ok stmt =>
            ⟨.returned (c.Append w entity target stmt false).1,
              (c.Append w entity target stmt false).2,
              [.parseParams rest, .packageLoad pkg,
               .NewStmt parsedPkg entity kind config (some []),
               .Append entity target stmt false]⟩

/-- The `RunE` closure of `newDbMapperMethod`; `target`, `pkg`, `entity` and
`iface` are the values of the flags `-t`, `-p`, `-e` and `-i`. -/
def newDbMapperMethod.RunE {Pkg σ : Type} (c : Collaborators Pkg σ)
    (target pkg entity : String) (iface : Bool) (w : σ) (args : List String) :
    Exec σ (Event Pkg) (Option GoError) :=
  match args with
  | [] => ⟨.panicked, w, []⟩
  | kind :: rest =>
    if entity = "" then
      ⟨.returned (some (.errorf "No database entity given")), w, []⟩
    else
      match parseParams c.KeyValue rest with
      | (_, some err) => ⟨.returned (some err), w, [.parseParams rest]⟩
      | (config, none) =>
        match packageLoad c pkg with
        | .panicked => ⟨.panicked, w, [.parseParams rest, .packageLoad pkg]⟩
        | .returned (.error err) =>
          ⟨.returned (some err), w, [.parseParams rest, .packageLoad pkg]⟩
        | .returned (.ok parsedPkg) =>
          match c.NewMethod parsedPkg entity kind config (some []) with
          | .error err =>
            ⟨.returned (some err), w,
              [.parseParams rest, .packageLoad pkg,
               .NewMethod parsedPkg entity kind config (some [])]⟩
          | .ok method =>
            ⟨.returned (c.Append w entity target method iface).1,
              (c.Append w entity target method iface).2,
              [.parseParams rest, .packageLoad pkg,
               .NewMethod parsedPkg entity kind config (some []),
               .Append entity target method iface]⟩

/-- Running the `stmt` command on its positional arguments: the validator
`Args: cobra.MinimumNArgs(1)` first, then `RunE`. -/
def newDbMapperStmt.Execute {Pkg σ : Type} (c : Collaborators Pkg σ)
    (target pkg entity : String) (w : σ) (args : List String) :
    Exec σ (Event Pkg) (Option GoError) :=
  match MinimumNArgs 1 args with
  | some err => ⟨.returned (some err), w, []⟩
  | none => newDbMapperStmt.RunE c target pkg entity w args

/-- Running the `method` command on its positional arguments: the validator
`Args: cobra.MinimumNArgs(1)` first, then `RunE`. -/
def newDbMapperMethod.Execute {Pkg σ : Type} (c : Collaborators Pkg σ)
    (target pkg entity : String) (iface : Bool) (w : σ) (args : List String) :
    Exec σ (Event Pkg) (Option GoError) :=
  match MinimumNArgs 1 args with
  | some err => ⟨.returned (some err), w, []⟩
  | none => newDbMapperMethod.RunE c target pkg entity iface w args

/-- The `file.Append` calls of a trace, as `(entity, target, text, iface)`. -/
def appendCalls {Pkg : Type} : List (Event Pkg) → List (String × String × String × Bool)
  | [] => []
  | .Append entity target text iface :: rest => (entity, target, text, iface) :: appendCalls rest
  | _ :: rest => appendCalls rest

/-! ## `internal/server/db/cluster/network_forwards.go` -/

/-- The type `sql.NullInt64`. -/
structure NullInt64 where
  Int64 : Int
  Valid : Bool
  deriving DecidableEq, Repr

/-- The struct `NetworkForward`; `Port` stands for `api.NetworkForwardPort`. -/
structure NetworkForward (Port : Type) where
  ID : Int
  NetworkID : Int
  NodeID : NullInt64
  Location : Option String
  ListenAddress : String
  Description : String
  Ports : Option (List Port)
  deriving DecidableEq, Repr

/-- The struct `NetworkForwardFilter`. -/
structure NetworkForwardFilter where
  ID : Option Int
  NetworkID : Option Int
  NodeID : Option Int
  ListenAddress : Option String
  deriving DecidableEq, Repr

/-- The fields of `api.NetworkForwardPut` that the code reads and writes. -/
structure api.NetworkForwardPut (Port : Type) where
  Description : String
  Config : Option GoMap
  Ports : Option (List Port)
  deriving DecidableEq, Repr

/-- The fields of `api.NetworkForward` that the code writes. -/
structure api.NetworkForward (Port : Type) where
  NetworkForwardPut : api.NetworkForwardPut Port
  ListenAddress : String
  Location : String
  deriving DecidableEq, Repr

/-- The calls into the generated mapper code. -/
inductive DbCall (Port : Type) where
  | GetNetworkForwardConfig (networkForwardID : Int)
  | UpdateNetworkForward (networkID : Int) (listenAddress : String)
      (object : NetworkForward Port)
  | UpdateNetworkForwardConfig (networkForwardID : Int) (config : Option GoMap)
  deriving DecidableEq, Repr

/-- The method `NetworkForward.ToAPI`.  `GetNetworkForwardConfig` is the
generated reader of the config rows, run on the transaction state `tx`. -/
def NetworkForward.ToAPI {Port σ : Type}
    (GetNetworkForwardConfig : σ → Int → Except GoError (Option GoMap))
    (tx : σ) (n : NetworkForward Port) :
    Exec σ (DbCall Port) (Option (api.NetworkForward Port) × Option GoError) :=
  match GetNetworkForwardConfig tx n.ID with
  | .error err => ⟨.returned (none, some err), tx, [.GetNetworkForwardConfig n.ID]⟩
  | .ok config =>
    match n.Location with
    | none => ⟨.panicked, tx, [.GetNetworkForwardConfig n.ID]⟩
    | some location =>
      ⟨.returned
        (some
          { NetworkForwardPut :=
              { Description := n.Description, Config := config, Ports := n.Ports }
            ListenAddress := n.ListenAddress
            Location := location },
         none),
        tx, [.GetNetworkForwardConfig n.ID]⟩

/-- The record `newRecord` that `UpdateNetworkForwardAPI` builds before its
first call. -/
def UpdateNetworkForwardAPI.newRecord {Port : Type} (curNetworkID : Int)
    (curNodeID : NullInt64) (curListenAddress : String)
    (newForward : api.NetworkForwardPut Port) : NetworkForward Port :=
  let newRecord : NetworkForward Port :=
    { ID := 0
      NetworkID := curNetworkID
      NodeID := curNodeID
      Location := none
      ListenAddress := curListenAddress
      Description := newForward.Description
      Ports := newForward.Ports }
  match newForward.Ports with
  | none => { newRecord with Ports := some [] }
  | some _ => newRecord

/-- The function `UpdateNetworkForwardAPI`.  `UpdateNetworkForward` and
`UpdateNetworkForwardConfig` are the generated mapper methods, acting on the
database state `σ`; `newForward` is a pointer. -/
def UpdateNetworkForwardAPI {Port σ : Type}
    (UpdateNetworkForward : σ → Int → String → NetworkForward Port → Option GoError × σ)
    (UpdateNetworkForwardConfig : σ → Int → Option GoMap → Option GoError × σ)
    (db : σ) (curForwardID : Int) (curNetworkID : Int) (curNodeID : NullInt64)
    (curListenAddress : String) (newForward : Option (api.NetworkForwardPut Port)) :
    Exec σ (DbCall Port) (Option GoError) :=
  match newForward with
  | none => ⟨.panicked, db, []⟩
  | some put =>
    let newRecord := UpdateNetworkForwardAPI.newRecord curNetworkID curNodeID curListenAddress put
    match UpdateNetworkForward db curNetworkID curListenAddress newRecord with
    | (some err, db1) =>
      ⟨.returned (some err), db1, [.UpdateNetworkForward curNetworkID curListenAddress newRecord]⟩
    | (none, db1) =>
      ⟨.returned (UpdateNetworkForwardConfig db1 curForwardID put.Config).1,
        (UpdateNetworkForwardConfig db1 curForwardID put.Config).2,
        [.UpdateNetworkForward curNetworkID curListenAddress newRecord,
         .UpdateNetworkForwardConfig curForwardID put.Config]⟩

/-! ## The generator directives and the entity declaration -/

/-- Splits a text at every occurrence of the separator `sep`. -/
def splitChars (sep : Char) : List Char → List (List Char)
  | [] => [[]]
  | c :: cs =>
    if c = sep then [] :: splitChars sep cs
    else
      match splitChars sep cs with
      | [] => [[c]]
      | w :: ws => (c :: w) :: ws

/-- Splits a string at every occurrence of the separator `sep`. -/
def splitText (sep : Char) (s : String) : List String :=
  (splitChars sep s.data).map String.mk

/-- The `stmt` and `method` directives of `network_forwards.go`, each line
without its leading `//generate-database:mapper `. -/
def directives : List String :=
  [ "stmt -e network_forward objects table=networks_forwards",
    "stmt -e network_forward objects-by-NetworkID table=networks_forwards",
    "stmt -e network_forward objects-by-NetworkID-and-ListenAddress table=networks_forwards",
    "stmt -e network_forward create table=networks_forwards",
    "stmt -e network_forward delete-by-NetworkID-and-ID table=networks_forwards",
    "stmt -e network_forward id table=networks_forwards",
    "stmt -e network_forward update table=networks_forwards",
    "method -i -e network_forward GetMany references=Config table=networks_forwards",
    "method -i -e network_forward GetOne table=networks_forwards",
    "method -i -e network_forward ID table=networks_forwards",
    "method -i -e network_forward Exists table=networks_forwards",
    "method -i -e network_forward Create references=Config table=networks_forwards",
    "method -i -e network_forward Update references=Config table=networks_forwards",
    "method -i -e network_forward DeleteOne-by-NetworkID-and-ID table=networks_forwards" ]

/-- A directive read as a command line: the sub-command, the flags `-i` and
`-e`, and the positional arguments (the kind first, then the parameters). -/
structure Directive where
  command : String
  iface : Bool
  entity : String
  args : List String
  deriving DecidableEq, Repr

/-- Reads the words after the sub-command: `-i` sets the interface flag, `-e`
takes the next word as the entity, every other word is positional. -/
def readWords (d : Directive) : List String → Directive
  | [] => d
  | [w] => if w = "-i" then { d with iface := true } else { d with args := d.args ++ [w] }
  | w :: v :: rest =>
    if w = "-i" then readWords { d with iface := true } (v :: rest)
    else if w = "-e" then readWords { d with entity := v } rest
    else readWords { d with args := d.args ++ [w] } (v :: rest)

/-- Reads a directive line. -/
def readDirective (line : String) : Directive :=
  match splitText ' ' line with
  | [] => ⟨"", false, "", []⟩
  | command :: words => readWords ⟨command, false, "", []⟩ words

/-- Modelled from the spec: the field names after the first one of a
`-by-F1[-and-F2...]` suffix, the kind being split at `-`. -/
def andFields : List String → Option (List String)
  | [] => some []
  | [_] => none
  | w :: f :: rest =>
    if w = "and" then (andFields rest).map (f :: ·) else none

/-- Modelled from the spec: the grammar `op[-by-F1[-and-F2...]]` of statement
and method kinds (the code reading a kind, `db.NewStmt` and `db.NewMethod`,
is not part of the two files).  Gives the operation and the filter fields;
without a `-by-...` suffix the filter fields are empty (the unconditional
variant). -/
def kindParts (kind : String) : Option (String × List String) :=
  match splitText '-' kind with
  | [] => none
  | [op] => some (op, [])
  | [_, _] => none
  | op :: w :: f :: rest =>
    if w = "by" then (andFields rest).map (fun fs => (op, f :: fs)) else none

/-- The filter fields that the directives of sub-command `command` for
`entity` declare for operation `op`, one list per declared variant. -/
def declaredVariants (command entity op : String) : List (List String) :=
  (directives.map readDirective).filterMap fun d =>
    if d.command = command ∧ d.entity = entity then
      match d.args with
      | [] => none
      | kind :: _ =>
        match kindParts kind with
        | none => none
        | some (o, fs) => if o = op then some fs else none
    else none

/-- Every filter field named by a `-by-...` directive of `entity`. -/
def namedFilterFields (entity : String) : List String :=
  ((directives.map readDirective).filterMap fun d =>
    if d.entity = entity then
      match d.args with
      | [] => none
      | kind :: _ => (kindParts kind).map Prod.snd
    else none).flatten

/-- The names of the fields of `NetworkForwardFilter`, in declaration order. -/
def NetworkForwardFilter.fieldNames : List String :=
  ["ID", "NetworkID", "NodeID", "ListenAddress"]

/-- The names of the filter fields that are present, given for each field of
`NetworkForwardFilter` whether it is non-nil. -/
def presentFields (id networkID nodeID listenAddress : Bool) : List String :=
  (if id then ["ID"] else [])
    ++ (if networkID then ["NetworkID"] else [])
    ++ (if nodeID then ["NodeID"] else [])
    ++ (if listenAddress then ["ListenAddress"] else [])

/-- The filter fields that are present (non-nil) in a filter value. -/
def NetworkForwardFilter.present (f : NetworkForwardFilter) : List String :=
  presentFields f.ID.isSome f.NetworkID.isSome f.NodeID.isSome f.ListenAddress.isSome

/-- Modelled from the spec: the filter fields of a statement variant are
exactly the fields that are present. -/
def MatchesFields (variant present : List String) : Prop :=
  ∀ name ∈ NetworkForwardFilter.fieldNames, name ∈ variant ↔ name ∈ present

/-- Modelled from the spec: a statement variant matches a filter value when
its filter fields are exactly the fields present in the value (the dispatch
of the generated `GetMany`, which is not part of the two files). -/
def Matches (variant : List String) (f : NetworkForwardFilter) : Prop :=
  MatchesFields variant f.present

instance (variant present : List String) : Decidable (MatchesFields variant present) := by
  unfold MatchesFields; infer_instance

instance (variant : List String) (f : NetworkForwardFilter) : Decidable (Matches variant f) := by
  unfold Matches; infer_instance

/-- A field of an entity struct: its name, its Go type and the value of the
`db` key of its struct tag, if it has one. -/
structure Field where
  name : String
  type : String
  tag : Option String
  deriving DecidableEq, Repr

/-- The fields of the struct `NetworkForward`, in declaration order. -/
def NetworkForward.fields : List Field :=
  [ ⟨"ID", "int", none⟩,
    ⟨"NetworkID", "int", some "primary=yes&column=network_id"⟩,
    ⟨"NodeID", "sql.NullInt64", some "column=node_id&nullable=true"⟩,
    ⟨"Location", "*string", some "leftjoin=nodes.name&omit=create,update"⟩,
    ⟨"ListenAddress", "string", some "primary=yes"⟩,
    ⟨"Description", "string", none⟩,
    ⟨"Ports", "[]api.NetworkForwardPort", some "marshal=json"⟩ ]

/-- Modelled from the spec: the tag parser, which is not part of the two
files.  A tag is a sequence of `key=value` pairs joined by `&`; the result is
the list of pairs, or `none` when some part is not of the form `key=value`. -/
def parseTag (tag : String) : Option (List (String × String)) :=
  (splitText '&' tag).mapM fun part =>
    match splitText '=' part with
    | [key, value] => some (key, value)
    | _ => none

/-- Modelled from the spec: the keys of the tag language. -/
def tagKeys : List String :=
  ["primary", "column", "nullable", "leftjoin", "marshal", "omit"]

/-- Modelled from the spec: the operation names an `omit` value may list. -/
def omitOperations : List String := ["create", "update"]

/-- The pairs of the tag of a field; no pairs when the field has no tag. -/
def Field.pairs (f : Field) : Option (List (String × String)) :=
  match f.tag with
  | none => some []
  | some tag => parseTag tag

/-- Modelled from the spec: a tag is well formed when it parses, all its keys
are keys of the tag language, no key occurs twice, and every `omit` value is
a comma-separated list of operation names. -/
def Field.WellTagged (f : Field) : Prop :=
  ∃ pairs, f.pairs = some pairs ∧
    (∀ p ∈ pairs, p.1 ∈ tagKeys) ∧
    (pairs.map Prod.fst).Nodup ∧
    ∀ p ∈ pairs, p.1 = "omit" → ∀ o ∈ splitText ',' p.2, o ∈ omitOperations

/-- Modelled from the spec: a field is a primary-key field when its tag has
the pair `primary=yes`. -/
def Field.isPrimary (f : Field) : Bool :=
  match f.pairs with
  | none => false
  | some pairs => pairs.contains ("primary", "yes")

/-- Modelled from the spec: the lower-snake projection of a field name.  A
word starts at an upper-case letter that follows a lower-case letter or a
digit, or that follows an upper-case letter and precedes a lower-case one;
words are joined by `_` and written in lower case. -/
def lowerSnakeChars (prev : Option Char) : List Char → List Char
  | [] => []
  | c :: cs =>
    let boundary :=
      c.isUpper &&
        match prev with
        | none => false
        | some p =>
          p.isLower || p.isDigit ||
            (p.isUpper && match cs with
              | [] => false
              | n :: _ => n.isLower)
    (if boundary then ['_', c.toLower] else [c.toLower]) ++ lowerSnakeChars (some c) cs

/-- Modelled from the spec: the lower-snake projection of a field name. -/
def lowerSnake (name : String) : String :=
  String.mk (lowerSnakeChars none name.data)

/-- Modelled from the spec: the column name of a field, the value of its
`column` key or else the lower-snake projection of its name. -/
def Field.columnName (f : Field) : String :=
  match f.pairs with
  | none => lowerSnake f.name
  | some pairs =>
    match pairs.lookup "column" with
    | some column => column
    | none => lowerSnake f.name

/-! ## Reference definitions and sample inputs -/

/-- The map obtained from `config` by assigning the pairs in order. -/
def assignAll (pairs : List (String × String)) (config : GoMap) : GoMap :=
  pairs.foldl (fun m p => m.set p.1 p.2) config

/-- The pair that `KeyValue` parses from an accepted argument. -/
def parsedPair (KeyValue : String → Except GoError (String × String)) (arg : String) :
    String × String :=
  match KeyValue arg with
  | .ok p => p
  | .error _ => ("", "")

/-- Modelled from the spec: `lex.KeyValue`, which is not part of the two
files.  An argument of the form `key=value` is accepted and gives its key and
its value; any other argument is rejected. -/
def KeyValue (s : String) : Except GoError (String × String) :=
  match splitText '=' s with
  | [key, value] => .ok (key, value)
  | _ => .error (.errorf ("not a key/value pair: " ++ s))

/-- Generation succeeds with `text`: the entity name is non-empty, the
arguments are a kind followed by parameters that `parseParams` accepts,
`packageLoad` returns a package and a nil error, and the generator `gen`
(`db.NewStmt` or `db.NewMethod`) returns `text` for the entity, the kind and
the parsed parameters. -/
def Generates {Pkg σ : Type} (c : Collaborators Pkg σ)
    (gen : Pkg → String → String → Option GoMap → Option GoMap → Except GoError String)
    (pkg entity : String) (args : List String) (text : String) : Prop :=
  entity ≠ "" ∧
    ∃ kind rest config parsedPkg,
      args = kind :: rest ∧ parseParams c.KeyValue rest = (config, none) ∧
      packageLoad c pkg = .returned (.ok parsedPkg) ∧
      gen parsedPkg entity kind config (some []) = .ok text

/-- The command reaches `packageLoad` and `packageLoad` panics: the entity
name is non-empty, the arguments are a kind followed by parameters that
`parseParams` accepts, and `packages.Load` gives an empty list and a nil
error. -/
def LoadPanics {Pkg σ : Type} (c : Collaborators Pkg σ) (pkg entity : String)
    (args : List String) : Prop :=
  entity ≠ "" ∧
    ∃ kind rest config,
      args = kind :: rest ∧ parseParams c.KeyValue rest = (config, none) ∧
      packageLoad c pkg = .panicked

/-- Sample collaborators for concrete runs: `KeyValue` as modelled, a working
directory with one package in it, generators that return the entity and the
kind joined by a colon, and an `Append` that adds the text to the list of
texts written. -/
def sampleCollaborators : Collaborators Unit (List String) where
  KeyValue := KeyValue
  buildImport := fun pkg => .ok ("/src/" ++ pkg)
  osGetwd := .ok "/work"
  packagesLoad := fun _ => .ok [()]
  quote := fun s => s.quote
  NewStmt := fun _ entity kind _ _ => .ok (entity ++ ":" ++ kind)
  NewMethod := fun _ entity kind _ _ => .ok (entity ++ ":" ++ kind)
  Append := fun w _ _ text _ => (none, w ++ [text])

/-- Sample collaborators whose working directory holds no package:
`packages.Load` gives an empty list and a nil error. -/
def emptyLoadCollaborators : Collaborators Unit (List String) where
  KeyValue := KeyValue
  buildImport := fun pkg => .ok ("/src/" ++ pkg)
  osGetwd := .ok "/work"
  packagesLoad := fun _ => .ok []
  quote := fun s => s.quote
  NewStmt := fun _ entity kind _ _ => .ok (entity ++ ":" ++ kind)
  NewMethod := fun _ entity kind _ _ => .ok (entity ++ ":" ++ kind)
  Append := fun w _ _ text _ => (none, w ++ [text])

/-! ## Theorems: `network_forwards.go` -/

/-- When the config is read and the `Location` pointer is set, `ToAPI`
returns the API record built from the fields of `n` and a nil error. -/
theorem ToAPI_of_location {Port σ : Type}
    (GetNetworkForwardConfig : σ → Int → Except GoError (Option GoMap))
    (tx : σ) (n : NetworkForward Port) (config : Option GoMap) (location : String)
    (hc : GetNetworkForwardConfig tx n.ID = .ok config) (hl : n.Location = some location) :
    (NetworkForward.ToAPI GetNetworkForwardConfig tx n).result =
      .returned
        (some ⟨⟨n.Description, config, n.Ports⟩, n.ListenAddress, location⟩, none) := by
  simp [NetworkForward.ToAPI, hc, hl]

/-- When the config is read and the `Location` pointer is nil, `ToAPI`
panics at `*n.Location`. -/
theorem ToAPI_of_nil_location {Port σ : Type}
    (GetNetworkForwardConfig : σ → Int → Except GoError (Option GoMap))
    (tx : σ) (n : NetworkForward Port) (config : Option GoMap)
    (hc : GetNetworkForwardConfig tx n.ID = .ok config) (hl : n.Location = none) :
    (NetworkForward.ToAPI GetNetworkForwardConfig tx n).result = .panicked := by
  simp [NetworkForward.ToAPI, hc, hl]

/-- C1: on the record of a forward without a cluster member (`NodeID` NULL,
so that the left-joined `Location` is nil) whose config is read successfully,
`ToAPI` does not return a record and a nil error: it panics on the
dereference `*n.Location`. -/
theorem ToAPI_panics_on_nil_Location :
    (NetworkForward.ToAPI (fun (_ : Unit) (_ : Int) => .ok (some []))
      () (⟨1, 1, ⟨0, false⟩, none, "192.0.2.1", "", (some [] : Option (List Nat))⟩)).result =
      .panicked := by
  rfl

/-- C3: every call of `UpdateNetworkForward` that `UpdateNetworkForwardAPI`
makes addresses the row by `(curNetworkID, curListenAddress)` and passes a
record whose `NetworkID`, `NodeID` and `ListenAddress` are `curNetworkID`,
`curNodeID` and `curListenAddress` (so the key fields of the record equal the
lookup key), whose `ID` and `Location` are the zero values, and which takes
from `newForward` its `Description` and `Ports` only; and for a non-nil
`newForward` that call is made, first. -/
theorem UpdateNetworkForwardAPI_frame {Port σ : Type}
    (UpdateNetworkForward : σ → Int → String → NetworkForward Port → Option GoError × σ)
    (UpdateNetworkForwardConfig : σ → Int → Option GoMap → Option GoError × σ)
    (db : σ) (curForwardID curNetworkID : Int) (curNodeID : NullInt64)
    (curListenAddress : String) (newForward : Option (api.NetworkForwardPut Port)) :
    (∀ networkID listenAddress object,
      DbCall.UpdateNetworkForward networkID listenAddress object ∈
        (UpdateNetworkForwardAPI UpdateNetworkForward UpdateNetworkForwardConfig db
          curForwardID curNetworkID curNodeID curListenAddress newForward).trace →
      networkID = curNetworkID ∧ listenAddress = curListenAddress ∧
      object.NetworkID = curNetworkID ∧ object.NodeID = curNodeID ∧
      object.ListenAddress = curListenAddress ∧
      object.NetworkID = networkID ∧ object.ListenAddress = listenAddress ∧
      object.ID = 0 ∧ object.Location = none ∧
      ∃ put, newForward = some put ∧ object.Description = put.Description ∧
        (object.Ports = put.Ports ∨ object.Ports = some [])) ∧
    (∀ put, newForward = some put →
      ∃ object, (UpdateNetworkForwardAPI UpdateNetworkForward UpdateNetworkForwardConfig db
          curForwardID curNetworkID curNodeID curListenAddress newForward).trace.head? =
        some (.UpdateNetworkForward curNetworkID curListenAddress object)) := by
  constructor
  · intro networkID listenAddress object h
    cases newForward with
    | none => simp [UpdateNetworkForwardAPI] at h
    | some put =>
      have hrec : ∀ r : NetworkForward Port,
          r = UpdateNetworkForwardAPI.newRecord curNetworkID curNodeID curListenAddress put →
          r.NetworkID = curNetworkID ∧ r.NodeID = curNodeID ∧
          r.ListenAddress = curListenAddress ∧ r.ID = 0 ∧ r.Location = none ∧
          r.Description = put.Description ∧ (r.Ports = put.Ports ∨ r.Ports = some []) := by
        intro r hr
        subst hr
        unfold UpdateNetworkForwardAPI.newRecord
        cases put.Ports <;> simp
      simp only [UpdateNetworkForwardAPI] at h
      split at h
      · simp at h
        obtain ⟨h1, h2, h3⟩ := h
        obtain ⟨a, b, c, d, e, f, g⟩ := hrec object h3
        subst h1 h2
        exact ⟨rfl, rfl, a, b, c, a, c, d, e, put, rfl, f, g⟩
      · simp at h
        obtain ⟨h1, h2, h3⟩ := h
        obtain ⟨a, b, c, d, e, f, g⟩ := hrec object h3
        subst h1 h2
        exact ⟨rfl, rfl, a, b, c, a, c, d, e, put, rfl, f, g⟩
  · intro put hput
    subst hput
    simp only [UpdateNetworkForwardAPI]
    split <;> exact ⟨_, rfl⟩

/-- A concrete instance: the `UpdateNetworkForward`
call of a run that rewrites forward 7 of network 3, both mapper calls
succeeding. -/
theorem UpdateNetworkForwardAPI_frame_witness :
    DbCall.UpdateNetworkForward 3 "192.0.2.1"
        (⟨0, 3, ⟨2, true⟩, none, "192.0.2.1", "web", some [80]⟩ : NetworkForward Nat) ∈
      (UpdateNetworkForwardAPI (fun (n : Nat) _ _ _ => (none, n + 1)) (fun n _ _ => (none, n + 1))
        0 7 3 ⟨2, true⟩ "192.0.2.1" (some ⟨"web", some [("k", "v")], some [80]⟩)).trace ∧
    (⟨0, 3, ⟨2, true⟩, none, "192.0.2.1", "web", some [80]⟩ : NetworkForward Nat).NodeID =
      ⟨2, true⟩ :=
  ⟨by decide,
   ((UpdateNetworkForwardAPI_frame
      (fun (n : Nat) _ _ (_ : NetworkForward Nat) => (none, n + 1)) (fun n _ _ => (none, n + 1))
      0 7 3 ⟨2, true⟩ "192.0.2.1" (some ⟨"web", some [("k", "v")], some [80]⟩)).1
      3 "192.0.2.1" ⟨0, 3, ⟨2, true⟩, none, "192.0.2.1", "web", some [80]⟩ (by decide)).2.2.2.1⟩

/-- C8: `UpdateNetworkForwardAPI` (on a non-nil `newForward`) calls
`UpdateNetworkForward` first and `UpdateNetworkForwardConfig` second and stops
at the first failure.  It returns nil exactly when both calls succeed; when
the first call fails it returns that error unchanged and its only call is
that first one; when the first call succeeds it returns the result of
`UpdateNetworkForwardConfig`, called on the state the first call left with
`curForwardID` and `newForward.Config`. -/
theorem UpdateNetworkForwardAPI_stops_at_first_failure {Port σ : Type}
    (UpdateNetworkForward : σ → Int → String → NetworkForward Port → Option GoError × σ)
    (UpdateNetworkForwardConfig : σ → Int → Option GoMap → Option GoError × σ)
    (db : σ) (curForwardID curNetworkID : Int) (curNodeID : NullInt64)
    (curListenAddress : String) (put : api.NetworkForwardPut Port) :
    ((UpdateNetworkForwardAPI UpdateNetworkForward UpdateNetworkForwardConfig db
          curForwardID curNetworkID curNodeID curListenAddress (some put)).result =
        .returned none ↔
      (UpdateNetworkForward db curNetworkID curListenAddress
          (UpdateNetworkForwardAPI.newRecord curNetworkID curNodeID curListenAddress put)).1 =
        none ∧
      (UpdateNetworkForwardConfig
          (UpdateNetworkForward db curNetworkID curListenAddress
            (UpdateNetworkForwardAPI.newRecord curNetworkID curNodeID curListenAddress put)).2
          curForwardID put.Config).1 = none) ∧
    (∀ err,
      (UpdateNetworkForward db curNetworkID curListenAddress
          (UpdateNetworkForwardAPI.newRecord curNetworkID curNodeID curListenAddress put)).1 =
        some err →
      UpdateNetworkForwardAPI UpdateNetworkForward UpdateNetworkForwardConfig db
          curForwardID curNetworkID curNodeID curListenAddress (some put) =
        ⟨.returned (some err),
         (UpdateNetworkForward db curNetworkID curListenAddress
            (UpdateNetworkForwardAPI.newRecord curNetworkID curNodeID curListenAddress put)).2,
         [.UpdateNetworkForward curNetworkID curListenAddress
            (UpdateNetworkForwardAPI.newRecord curNetworkID curNodeID curListenAddress put)]⟩) ∧
    ((UpdateNetworkForward db curNetworkID curListenAddress
          (UpdateNetworkForwardAPI.newRecord curNetworkID curNodeID curListenAddress put)).1 =
        none →
      UpdateNetworkForwardAPI UpdateNetworkForward UpdateNetworkForwardConfig db
          curForwardID curNetworkID curNodeID curListenAddress (some put) =
        ⟨.returned
          (UpdateNetworkForwardConfig
            (UpdateNetworkForward db curNetworkID curListenAddress
              (UpdateNetworkForwardAPI.newRecord curNetworkID curNodeID curListenAddress put)).2
            curForwardID put.Config).1,
         (UpdateNetworkForwardConfig
            (UpdateNetworkForward db curNetworkID curListenAddress
              (UpdateNetworkForwardAPI.newRecord curNetworkID curNodeID curListenAddress put)).2
            curForwardID put.Config).2,
         [.UpdateNetworkForward curNetworkID curListenAddress
            (UpdateNetworkForwardAPI.newRecord curNetworkID curNodeID curListenAddress put),
          .UpdateNetworkForwardConfig curForwardID put.Config]⟩) := by
  simp only [UpdateNetworkForwardAPI]
  rcases h : UpdateNetworkForward db curNetworkID curListenAddress
      (UpdateNetworkForwardAPI.newRecord curNetworkID curNodeID curListenAddress put) with
    ⟨_ | err, db1⟩
  · simp
  · simp

/-- A concrete instance: the row
update fails with "not found", which is returned as it is, and the config is
not touched. -/
theorem UpdateNetworkForwardAPI_stops_at_first_failure_witness :
    UpdateNetworkForwardAPI
        (fun (n : Nat) _ _ (_ : NetworkForward Nat) => (some (.errorf "not found"), n + 1))
        (fun n _ _ => (none, n + 10))
        0 7 3 ⟨2, true⟩ "192.0.2.1" (some ⟨"web", some [("k", "v")], none⟩) =
      ⟨.returned (some (.errorf "not found")), 1,
       [.UpdateNetworkForward 3 "192.0.2.1"
          ⟨0, 3, ⟨2, true⟩, none, "192.0.2.1", "web", some []⟩]⟩ :=
  (UpdateNetworkForwardAPI_stops_at_first_failure
    (fun (n : Nat) _ _ (_ : NetworkForward Nat) => (some (.errorf "not found"), n + 1))
    (fun n _ _ => (none, n + 10))
    0 7 3 ⟨2, true⟩ "192.0.2.1" ⟨"web", some [("k", "v")], none⟩).2.1
    (.errorf "not found") rfl

/-- C9: the record that `UpdateNetworkForwardAPI` (on a non-nil `newForward`)
passes to `UpdateNetworkForward` has the description of `newForward` and a
non-nil `Ports` list: the ports of `newForward` when they are non-nil, the
empty list when they are nil; and it passes no other record. -/
theorem UpdateNetworkForwardAPI_ports_never_nil {Port σ : Type}
    (UpdateNetworkForward : σ → Int → String → NetworkForward Port → Option GoError × σ)
    (UpdateNetworkForwardConfig : σ → Int → Option GoMap → Option GoError × σ)
    (db : σ) (curForwardID curNetworkID : Int) (curNodeID : NullInt64)
    (curListenAddress : String) (put : api.NetworkForwardPut Port) :
    ∃ object : NetworkForward Port,
      (UpdateNetworkForwardAPI UpdateNetworkForward UpdateNetworkForwardConfig db
          curForwardID curNetworkID curNodeID curListenAddress (some put)).trace.head? =
        some (.UpdateNetworkForward curNetworkID curListenAddress object) ∧
      (∀ networkID listenAddress other,
        DbCall.UpdateNetworkForward networkID listenAddress other ∈
          (UpdateNetworkForwardAPI UpdateNetworkForward UpdateNetworkForwardConfig db
            curForwardID curNetworkID curNodeID curListenAddress (some put)).trace →
        other = object) ∧
      object.Description = put.Description ∧
      object.Ports ≠ none ∧
      (∀ ports, put.Ports = some ports → object.Ports = some ports) ∧
      (put.Ports = none → object.Ports = some []) := by
  refine ⟨UpdateNetworkForwardAPI.newRecord curNetworkID curNodeID curListenAddress put,
    ?_, ?_, ?_, ?_, ?_, ?_⟩
  · simp only [UpdateNetworkForwardAPI]
    split <;> rfl
  · intro networkID listenAddress other h
    simp only [UpdateNetworkForwardAPI] at h
    split at h <;> simp at h <;> exact h.2.2
  · unfold UpdateNetworkForwardAPI.newRecord
    cases put.Ports <;> rfl
  · unfold UpdateNetworkForwardAPI.newRecord
    cases put.Ports <;> simp
  · intro ports hp
    unfold UpdateNetworkForwardAPI.newRecord
    rw [hp]
  · intro hp
    unfold UpdateNetworkForwardAPI.newRecord
    rw [hp]

/-- A concrete instance: for a
`newForward` with nil ports, the record written has the empty port list. -/
theorem UpdateNetworkForwardAPI_ports_never_nil_witness :
    ∃ object : NetworkForward Nat,
      (UpdateNetworkForwardAPI (fun (n : Nat) _ _ _ => (none, n + 1)) (fun n _ _ => (none, n + 1))
          0 7 3 ⟨2, true⟩ "192.0.2.1" (some ⟨"web", none, none⟩)).trace.head? =
        some (.UpdateNetworkForward 3 "192.0.2.1" object) ∧
      object.Ports = some [] :=
  match UpdateNetworkForwardAPI_ports_never_nil
      (fun (n : Nat) _ _ (_ : NetworkForward Nat) => (none, n + 1)) (fun n _ _ => (none, n + 1))
      0 7 3 ⟨2, true⟩ "192.0.2.1" ⟨"web", none, none⟩ with
  | ⟨object, h1, _, _, _, _, h6⟩ => ⟨object, h1, h6 rfl⟩

/-! ## Theorems: `parseParams` -/

namespace GoMap

theorem get_set (m : GoMap) (k v k' : String) :
    (m.set k v).get k' = if k = k' then some v else m.get k' := by
  induction m with
  | nil => simp [set, get]
  | cons e rest ih =>
    obtain ⟨a, b⟩ := e
    by_cases h : a = k
    · subst h
      by_cases h' : a = k' <;> simp [set, get, h']
    · by_cases h' : k = k'
      · subst h'
        simp [set, get, h, ih]
      · simp only [set, if_neg h, get, ih, if_neg h']

theorem mem_keys_set (m : GoMap) (k v k' : String) :
    k' ∈ (m.set k v).keys ↔ k' = k ∨ k' ∈ m.keys := by
  induction m with
  | nil => simp [set, keys]
  | cons e rest ih =>
    obtain ⟨a, b⟩ := e
    by_cases h : a = k
    · subst h
      simp [set, keys]
    · have ih' : k' ∈ List.map Prod.fst (set rest k v) ↔ k' = k ∨ k' ∈ List.map Prod.fst rest := ih
      simp only [set, if_neg h, keys, List.map_cons, List.mem_cons, ih']
      tauto

theorem nodup_keys_set (m : GoMap) (k v : String) (h : m.keys.Nodup) :
    (m.set k v).keys.Nodup := by
  induction m with
  | nil => simp [set, keys]
  | cons e rest ih =>
    obtain ⟨a, b⟩ := e
    have h' : a ∉ List.map Prod.fst rest ∧ (List.map Prod.fst rest).Nodup := by
      simpa [keys] using h
    by_cases hk : a = k
    · subst hk
      simpa [set, keys] using h'
    · have hmem := mem_keys_set rest k v a
      have ih' : (List.map Prod.fst (set rest k v)).Nodup := ih h'.2
      simp only [set, if_neg hk, keys, List.map_cons, List.nodup_cons]
      refine ⟨?_, ih'⟩
      intro hin
      rcases hmem.1 hin with h1 | h1
      · exact hk h1
      · exact h'.1 h1

theorem get_eq_none_iff (m : GoMap) (k : String) : m.get k = none ↔ k ∉ m.keys := by
  induction m with
  | nil => simp [get, keys]
  | cons e rest ih =>
    obtain ⟨a, b⟩ := e
    have ih' : get rest k = none ↔ k ∉ List.map Prod.fst rest := ih
    by_cases h : a = k
    · subst h
      simp [get, keys]
    · have h2 : ¬ k = a := fun h' => h h'.symm
      simp [get, keys, h, h2, ih']

end GoMap

theorem assignAll_append (xs ys : List (String × String)) (m : GoMap) :
    assignAll (xs ++ ys) m = assignAll ys (assignAll xs m) := by
  simp [assignAll, List.foldl_append]

theorem assignAll_cons (p : String × String) (ps : List (String × String)) (m : GoMap) :
    assignAll (p :: ps) m = assignAll ps (m.set p.1 p.2) := rfl

theorem get_assignAll_of_not_mem (ps : List (String × String)) (m : GoMap) (k : String)
    (h : ∀ q ∈ ps, q.1 ≠ k) : (assignAll ps m).get k = m.get k := by
  induction ps generalizing m with
  | nil => rfl
  | cons p ps ih =>
    rw [assignAll_cons, ih _ (fun q hq => h q (List.mem_cons_of_mem _ hq)), GoMap.get_set,
      if_neg (h p (List.mem_cons_self _ _))]

theorem mem_keys_assignAll (ps : List (String × String)) (m : GoMap) (k : String) :
    k ∈ (assignAll ps m).keys ↔ k ∈ ps.map Prod.fst ∨ k ∈ m.keys := by
  induction ps generalizing m with
  | nil => simp [assignAll]
  | cons p ps ih =>
    rw [assignAll_cons, ih, GoMap.mem_keys_set]
    simp only [List.map_cons, List.mem_cons]
    tauto

theorem nodup_keys_assignAll (ps : List (String × String)) (m : GoMap) (h : m.keys.Nodup) :
    (assignAll ps m).keys.Nodup := by
  induction ps generalizing m with
  | nil => exact h
  | cons p ps ih =>
    rw [assignAll_cons]
    exact ih _ (GoMap.nodup_keys_set m p.1 p.2 h)

theorem get_assignAll_last (pre post : List (String × String)) (p : String × String)
    (m : GoMap) (h : ∀ q ∈ post, q.1 ≠ p.1) :
    (assignAll (pre ++ p :: post) m).get p.1 = some p.2 := by
  rw [assignAll_append, assignAll_cons, get_assignAll_of_not_mem _ _ _ h, GoMap.get_set]
  simp

theorem get_assignAll_of_nodup (ps : List (String × String)) (k v : String)
    (hn : (ps.map Prod.fst).Nodup) :
    (assignAll ps []).get k = some v ↔ (k, v) ∈ ps := by
  constructor
  · intro hg
    have hk : k ∈ ps.map Prod.fst := by
      by_contra hc
      have : (assignAll ps []).get k = none := by
        rw [GoMap.get_eq_none_iff, mem_keys_assignAll]
        simp [GoMap.keys, hc]
      rw [this] at hg
      cases hg
    obtain ⟨q, hq, hqk⟩ := List.mem_map.1 hk
    obtain ⟨pre, post, hsplit⟩ := List.append_of_mem hq
    have hpost : ∀ r ∈ post, r.1 ≠ q.1 := by
      intro r hr heq
      rw [hsplit, List.map_append, List.map_cons] at hn
      have h2 := (List.nodup_append.1 hn).2.1
      have h3 := (List.nodup_cons.1 h2).1
      exact h3 (heq ▸ List.mem_map_of_mem Prod.fst hr)
    have hlast := get_assignAll_last pre post q [] hpost
    rw [← hsplit, hqk, hg] at hlast
    have hv : v = q.2 := by simpa using hlast
    have : (k, v) = q := by rw [hv, ← hqk]
    rw [this]
    exact hq
  · intro hmem
    obtain ⟨pre, post, hsplit⟩ := List.append_of_mem hmem
    have hpost : ∀ r ∈ post, r.1 ≠ k := by
      intro r hr heq
      rw [hsplit, List.map_append, List.map_cons] at hn
      have h2 := (List.nodup_append.1 hn).2.1
      have h3 := (List.nodup_cons.1 h2).1
      have hm : r.1 ∈ post.map Prod.fst := List.mem_map_of_mem Prod.fst hr
      rw [heq] at hm
      exact h3 hm
    rw [hsplit]
    exact get_assignAll_last pre post (k, v) [] hpost

theorem get_assignAll_perm (ps qs : List (String × String)) (hp : qs.Perm ps)
    (hn : (ps.map Prod.fst).Nodup) (k : String) :
    (assignAll qs []).get k = (assignAll ps []).get k := by
  have hn2 : (qs.map Prod.fst).Nodup := (hp.map Prod.fst).nodup_iff.2 hn
  cases h : (assignAll ps []).get k with
  | none =>
    rw [GoMap.get_eq_none_iff, mem_keys_assignAll] at h ⊢
    intro hc
    apply h
    rcases hc with hc | hc
    · exact Or.inl ((hp.map Prod.fst).mem_iff.1 hc)
    · exact Or.inr hc
  | some v =>
    rw [get_assignAll_of_nodup _ _ _ hn] at h
    rw [get_assignAll_of_nodup _ _ _ hn2]
    exact hp.mem_iff.2 h

theorem parseParamsLoop_accepted (KeyValue : String → Except GoError (String × String))
    (args : List String) (config : GoMap) (h : ∀ a ∈ args, ∃ p, KeyValue a = .ok p) :
    parseParamsLoop KeyValue args config =
      (some (assignAll (args.map (parsedPair KeyValue)) config), none) := by
  induction args generalizing config with
  | nil => rfl
  | cons a rest ih =>
    obtain ⟨p, hp⟩ := h a (List.mem_cons_self _ _)
    obtain ⟨k, v⟩ := p
    have hpp : parsedPair KeyValue a = (k, v) := by simp [parsedPair, hp]
    simp only [parseParamsLoop, hp, List.map_cons, assignAll_cons, hpp]
    exact ih _ (fun b hb => h b (List.mem_cons_of_mem _ hb))

theorem parseParamsLoop_rejected (KeyValue : String → Except GoError (String × String))
    (pre post : List String) (arg : String) (err : GoError) (config : GoMap)
    (h : ∀ a ∈ pre, ∃ p, KeyValue a = .ok p) (he : KeyValue arg = .error err) :
    parseParamsLoop KeyValue (pre ++ arg :: post) config =
      (none, some (.wrapf "Invalid config parameter: " err)) := by
  induction pre generalizing config with
  | nil => simp [parseParamsLoop, he]
  | cons a rest ih =>
    obtain ⟨p, hp⟩ := h a (List.mem_cons_self _ _)
    obtain ⟨k, v⟩ := p
    simp only [List.cons_append, parseParamsLoop, hp]
    exact ih _ (fun b hb => h b (List.mem_cons_of_mem _ hb))

theorem exists_first_rejected (KeyValue : String → Except GoError (String × String))
    (args : List String) (h : ∃ a ∈ args, ∃ err, KeyValue a = .error err) :
    ∃ pre arg post err, args = pre ++ arg :: post ∧
      (∀ a ∈ pre, ∃ p, KeyValue a = .ok p) ∧ KeyValue arg = .error err := by
  induction args with
  | nil => simp at h
  | cons a rest ih =>
    cases hk : KeyValue a with
    | error err => exact ⟨[], a, rest, err, rfl, by simp, hk⟩
    | ok p =>
      obtain ⟨b, hb, e, he⟩ := h
      have hb' : b ∈ rest := by
        rcases List.mem_cons.1 hb with h1 | h1
        · subst h1
          rw [hk] at he
          cases he
        · exact h1
      obtain ⟨pre, arg, post, err, h1, h2, h3⟩ := ih ⟨b, hb', e, he⟩
      refine ⟨a :: pre, arg, post, err, by simp [h1], ?_, h3⟩
      intro c hc
      rcases List.mem_cons.1 hc with h4 | h4
      · exact ⟨p, h4 ▸ hk⟩
      · exact h2 c h4

/-- C5: `parseParams` returns a map and a nil error exactly when `KeyValue`
accepts every argument; when the first rejected argument (all arguments
before it being accepted) is rejected with `err`, it returns the nil map and
the error wrapping `err` behind the text "Invalid config parameter: ", and
some such error whenever an argument is rejected; for the empty argument list
it returns the empty (non-nil) map. -/
theorem parseParams_accepts_iff (KeyValue : String → Except GoError (String × String))
    (args : List String) :
    ((∃ config, parseParams KeyValue args = (some config, none)) ↔
      ∀ a ∈ args, ∃ p, KeyValue a = .ok p) ∧
    (∀ pre arg post err, args = pre ++ arg :: post →
      (∀ a ∈ pre, ∃ p, KeyValue a = .ok p) → KeyValue arg = .error err →
      parseParams KeyValue args = (none, some (.wrapf "Invalid config parameter: " err)) ∧
      (GoError.wrapf "Invalid config parameter: " err).Unwrap = some err ∧
      (GoError.wrapf "Invalid config parameter: " err).Error =
        "Invalid config parameter: " ++ err.Error) ∧
    ((∃ a ∈ args, ∃ err, KeyValue a = .error err) →
      ∃ err, parseParams KeyValue args =
        (none, some (.wrapf "Invalid config parameter: " err))) ∧
    parseParams KeyValue [] = (some [], none) := by
  have hrej : ∀ pre arg post err, args = pre ++ arg :: post →
      (∀ a ∈ pre, ∃ p, KeyValue a = .ok p) → KeyValue arg = .error err →
      parseParams KeyValue args = (none, some (.wrapf "Invalid config parameter: " err)) := by
    intro pre arg post err hsplit hpre herr
    rw [hsplit]
    exact parseParamsLoop_rejected KeyValue pre post arg err [] hpre herr
  refine ⟨⟨?_, ?_⟩, ?_, ?_, rfl⟩
  · rintro ⟨config, hc⟩ a ha
    cases hk : KeyValue a with
    | ok p => exact ⟨p, rfl⟩
    | error err =>
      obtain ⟨pre, arg, post, e, h1, h2, h3⟩ :=
        exists_first_rejected KeyValue args ⟨a, ha, err, hk⟩
      rw [hrej pre arg post e h1 h2 h3] at hc
      cases hc
  · intro h
    exact ⟨_, parseParamsLoop_accepted KeyValue args [] h⟩
  · intro pre arg post err h1 h2 h3
    exact ⟨hrej pre arg post err h1 h2 h3, rfl, rfl⟩
  · intro h
    obtain ⟨pre, arg, post, e, h1, h2, h3⟩ := exists_first_rejected KeyValue args h
    exact ⟨e, hrej pre arg post e h1 h2 h3⟩

/-- A concrete instance: the second of three arguments
is the first one rejected, and its error is the one wrapped. -/
theorem parseParams_accepts_iff_witness :
    parseParams KeyValue ["table=networks_forwards", "references", "a=b=c"] =
      (none, some (.wrapf "Invalid config parameter: "
        (.errorf "not a key/value pair: references"))) :=
  ((parseParams_accepts_iff KeyValue ["table=networks_forwards", "references", "a=b=c"]).2.1
    ["table=networks_forwards"] "references" ["a=b=c"]
    (.errorf "not a key/value pair: references") rfl
    (by intro a ha; rw [List.mem_singleton] at ha; subst ha; exact ⟨_, rfl⟩)
    (by rfl)).1

/-- C10: when `KeyValue` accepts every argument, `pairs` being the parsed
pairs in argument order, `parseParams` returns a map whose keys are exactly
the parsed keys (each once) and which maps each key to the value of the last
argument carrying it; and when the parsed keys are pairwise distinct, every
reordering of the arguments gives a map with the same value under every
key. -/
theorem parseParams_last_value_wins (KeyValue : String → Except GoError (String × String))
    (args : List String) (pairs : List (String × String))
    (h : args.map KeyValue = pairs.map Except.ok) :
    ∃ config, parseParams KeyValue args = (some config, none) ∧
      config.keys.Nodup ∧
      (∀ k, k ∈ config.keys ↔ k ∈ pairs.map Prod.fst) ∧
      (∀ k, config.get k ≠ none ↔ k ∈ pairs.map Prod.fst) ∧
      (∀ pre p post, pairs = pre ++ p :: post → (∀ q ∈ post, q.1 ≠ p.1) →
        config.get p.1 = some p.2) ∧
      ((pairs.map Prod.fst).Nodup → ∀ args2, args2.Perm args →
        ∃ config2, parseParams KeyValue args2 = (some config2, none) ∧
          config2.keys.Nodup ∧ ∀ k, config2.get k = config.get k) := by
  have hacc : ∀ a ∈ args, ∃ p, KeyValue a = .ok p := by
    intro a ha
    have hm : KeyValue a ∈ pairs.map Except.ok := h ▸ List.mem_map_of_mem KeyValue ha
    obtain ⟨p, _, hp⟩ := List.mem_map.1 hm
    exact ⟨p, hp.symm⟩
  have hpairs : args.map (parsedPair KeyValue) = pairs := by
    clear hacc
    induction args generalizing pairs with
    | nil =>
      cases pairs with
      | nil => rfl
      | cons p ps => simp at h
    | cons a rest ih =>
      cases pairs with
      | nil => simp at h
      | cons p ps =>
        simp only [List.map_cons, List.cons.injEq] at h
        simp only [List.map_cons, parsedPair, h.1, ih ps h.2]
  refine ⟨assignAll pairs [], ?_, ?_, ?_, ?_, ?_, ?_⟩
  · rw [← hpairs]
    exact parseParamsLoop_accepted KeyValue args [] hacc
  · exact nodup_keys_assignAll pairs [] (by simp [GoMap.keys])
  · intro k
    rw [mem_keys_assignAll]
    simp [GoMap.keys]
  · intro k
    rw [Ne, GoMap.get_eq_none_iff, not_not, mem_keys_assignAll]
    simp [GoMap.keys]
  · intro pre p post hs hpost
    rw [hs]
    exact get_assignAll_last pre post p [] hpost
  · intro hn args2 hperm
    have hacc2 : ∀ a ∈ args2, ∃ p, KeyValue a = .ok p :=
      fun a ha => hacc a (hperm.mem_iff.1 ha)
    refine ⟨assignAll (args2.map (parsedPair KeyValue)) [],
      parseParamsLoop_accepted KeyValue args2 [] hacc2,
      nodup_keys_assignAll _ [] (by simp [GoMap.keys]), ?_⟩
    intro k
    have hp2 : (args2.map (parsedPair KeyValue)).Perm pairs := by
      rw [← hpairs]
      exact hperm.map _
    exact get_assignAll_perm pairs _ hp2 hn k

/-- A concrete instance: `table` is given twice and
the later value is the one kept. -/
theorem parseParams_last_value_wins_witness :
    ∃ config, parseParams KeyValue ["table=a", "references=Config", "table=b"] =
        (some config, none) ∧
      config.get "table" = some "b" :=
  match parseParams_last_value_wins KeyValue ["table=a", "references=Config", "table=b"]
      [("table", "a"), ("references", "Config"), ("table", "b")] (by rfl) with
  | ⟨config, h1, _, _, _, h5, _⟩ =>
    ⟨config, h1,
     h5 [("table", "a"), ("references", "Config")] ("table", "b") [] rfl
       (by intro q hq; cases hq)⟩

/-! ## Theorems: the `stmt` and `method` commands -/

theorem stmt_run_of_generates {Pkg σ : Type} (c : Collaborators Pkg σ)
    (target pkg entity : String) (w : σ) (kind : String) (rest : List String)
    (config : Option GoMap) (parsedPkg : Pkg) (text : String) (he : entity ≠ "")
    (hp : parseParams c.KeyValue rest = (config, none))
    (hl : packageLoad c pkg = .returned (.ok parsedPkg))
    (hg : c.NewStmt parsedPkg entity kind config (some []) = .ok text) :
    newDbMapperStmt.Execute c target pkg entity w (kind :: rest) =
      ⟨.returned (c.Append w entity target text false).1,
       (c.Append w entity target text false).2,
       [.parseParams rest, .packageLoad pkg, .NewStmt parsedPkg entity kind config (some []),
        .Append entity target text false]⟩ := by
  simp [newDbMapperStmt.Execute, MinimumNArgs, newDbMapperStmt.RunE, he, hp, hl, hg]

theorem method_run_of_generates {Pkg σ : Type} (c : Collaborators Pkg σ)
    (target pkg entity : String) (iface : Bool) (w : σ) (kind : String) (rest : List String)
    (config : Option GoMap) (parsedPkg : Pkg) (text : String) (he : entity ≠ "")
    (hp : parseParams c.KeyValue rest = (config, none))
    (hl : packageLoad c pkg = .returned (.ok parsedPkg))
    (hg : c.NewMethod parsedPkg entity kind config (some []) = .ok text) :
    newDbMapperMethod.Execute c target pkg entity iface w (kind :: rest) =
      ⟨.returned (c.Append w entity target text iface).1,
       (c.Append w entity target text iface).2,
       [.parseParams rest, .packageLoad pkg, .NewMethod parsedPkg entity kind config (some []),
        .Append entity target text iface]⟩ := by
  simp [newDbMapperMethod.Execute, MinimumNArgs, newDbMapperMethod.RunE, he, hp, hl, hg]

theorem stmt_run_of_not_generates {Pkg σ : Type} (c : Collaborators Pkg σ)
    (target pkg entity : String) (w : σ) (args : List String)
    (h : ¬ ∃ text, Generates c c.NewStmt pkg entity args text) :
    (newDbMapperStmt.Execute c target pkg entity w args).state = w ∧
      (∀ e t x i,
        Event.Append e t x i ∉ (newDbMapperStmt.Execute c target pkg entity w args).trace) ∧
      (¬ LoadPanics c pkg entity args →
        ∃ err,
          (newDbMapperStmt.Execute c target pkg entity w args).result =
            .returned (some err)) := by
  cases args with
  | nil =>
    refine ⟨by simp [newDbMapperStmt.Execute, MinimumNArgs],
      by simp [newDbMapperStmt.Execute, MinimumNArgs], fun _ => ?_⟩
    exact ⟨.errorf ("requires at least " ++ toString 1 ++ " arg(s), only received "
      ++ toString 0), by simp [newDbMapperStmt.Execute, MinimumNArgs]⟩
  | cons kind rest =>
    by_cases he : entity = ""
    · refine ⟨by simp [newDbMapperStmt.Execute, MinimumNArgs, newDbMapperStmt.RunE, he],
        by simp [newDbMapperStmt.Execute, MinimumNArgs, newDbMapperStmt.RunE, he], fun _ => ?_⟩
      exact ⟨.errorf "No database entity given", by
        simp [newDbMapperStmt.Execute, MinimumNArgs, newDbMapperStmt.RunE, he]⟩
    · rcases hp : parseParams c.KeyValue rest with ⟨config, _ | err⟩
      · cases hl : packageLoad c pkg with
        | panicked =>
          refine ⟨?_, ?_, fun hn => absurd ⟨he, kind, rest, config, rfl, hp, hl⟩ hn⟩ <;>
            simp [newDbMapperStmt.Execute, MinimumNArgs, newDbMapperStmt.RunE, he, hp, hl]
        | returned r =>
          cases r with
          | error err =>
            refine ⟨?_, ?_, fun _ => ⟨err, ?_⟩⟩ <;>
              simp [newDbMapperStmt.Execute, MinimumNArgs, newDbMapperStmt.RunE, he, hp, hl]
          | ok parsedPkg =>
            cases hg : c.NewStmt parsedPkg entity kind config (some []) with
            | error err =>
              refine ⟨?_, ?_, fun _ => ⟨err, ?_⟩⟩ <;>
                simp [newDbMapperStmt.Execute, MinimumNArgs, newDbMapperStmt.RunE, he, hp, hl, hg]
            | ok text =>
              exact absurd ⟨text, he, kind, rest, config, parsedPkg, rfl, hp, hl, hg⟩ h
      · refine ⟨?_, ?_, fun _ => ⟨err, ?_⟩⟩ <;>
          simp [newDbMapperStmt.Execute, MinimumNArgs, newDbMapperStmt.RunE, he, hp]

theorem method_run_of_not_generates {Pkg σ : Type} (c : Collaborators Pkg σ)
    (target pkg entity : String) (iface : Bool) (w : σ) (args : List String)
    (h : ¬ ∃ text, Generates c c.NewMethod pkg entity args text) :
    (newDbMapperMethod.Execute c target pkg entity iface w args).state = w ∧
      (∀ e t x i,
        Event.Append e t x i ∉
          (newDbMapperMethod.Execute c target pkg entity iface w args).trace) ∧
      (¬ LoadPanics c pkg entity args →
        ∃ err,
          (newDbMapperMethod.Execute c target pkg entity iface w args).result =
            .returned (some err)) := by
  cases args with
  | nil =>
    refine ⟨by simp [newDbMapperMethod.Execute, MinimumNArgs],
      by simp [newDbMapperMethod.Execute, MinimumNArgs], fun _ => ?_⟩
    exact ⟨.errorf ("requires at least " ++ toString 1 ++ " arg(s), only received "
      ++ toString 0), by simp [newDbMapperMethod.Execute, MinimumNArgs]⟩
  | cons kind rest =>
    by_cases he : entity = ""
    · refine ⟨by simp [newDbMapperMethod.Execute, MinimumNArgs, newDbMapperMethod.RunE, he],
        by simp [newDbMapperMethod.Execute, MinimumNArgs, newDbMapperMethod.RunE, he],
        fun _ => ?_⟩
      exact ⟨.errorf "No database entity given", by
        simp [newDbMapperMethod.Execute, MinimumNArgs, newDbMapperMethod.RunE, he]⟩
    · rcases hp : parseParams c.KeyValue rest with ⟨config, _ | err⟩
      · cases hl : packageLoad c pkg with
        | panicked =>
          refine ⟨?_, ?_, fun hn => absurd ⟨he, kind, rest, config, rfl, hp, hl⟩ hn⟩ <;>
            simp [newDbMapperMethod.Execute, MinimumNArgs, newDbMapperMethod.RunE, he, hp, hl]
        | returned r =>
          cases r with
          | error err =>
            refine ⟨?_, ?_, fun _ => ⟨err, ?_⟩⟩ <;>
              simp [newDbMapperMethod.Execute, MinimumNArgs, newDbMapperMethod.RunE, he, hp, hl]
          | ok parsedPkg =>
            cases hg : c.NewMethod parsedPkg entity kind config (some []) with
            | error err =>
              refine ⟨?_, ?_, fun _ => ⟨err, ?_⟩⟩ <;>
                simp [newDbMapperMethod.Execute, MinimumNArgs, newDbMapperMethod.RunE, he, hp, hl, hg]
            | ok text =>
              exact absurd ⟨text, he, kind, rest, config, parsedPkg, rfl, hp, hl, hg⟩ h
      · refine ⟨?_, ?_, fun _ => ⟨err, ?_⟩⟩ <;>
          simp [newDbMapperMethod.Execute, MinimumNArgs, newDbMapperMethod.RunE, he, hp]

theorem appendCalls_eq_nil {Pkg : Type} (trace : List (Event Pkg))
    (h : ∀ e t x i, Event.Append e t x i ∉ trace) : appendCalls trace = [] := by
  induction trace with
  | nil => rfl
  | cons ev rest ih =>
    have hr : ∀ e t x i, Event.Append e t x i ∉ rest :=
      fun e t x i hm => h e t x i (List.mem_cons_of_mem _ hm)
    cases ev with
    | Append e t x i => exact absurd (List.mem_cons_self _ _) (h e t x i)
    | parseParams a => simpa [appendCalls] using ih hr
    | packageLoad a => simpa [appendCalls] using ih hr
    | NewStmt a b d f g => simpa [appendCalls] using ih hr
    | NewMethod a b d f g => simpa [appendCalls] using ih hr

theorem generates_text_unique {Pkg σ : Type} (c : Collaborators Pkg σ)
    (gen : Pkg → String → String → Option GoMap → Option GoMap → Except GoError String)
    (pkg entity : String) (args : List String) (text text2 : String)
    (h1 : Generates c gen pkg entity args text) (h2 : Generates c gen pkg entity args text2) :
    text = text2 := by
  obtain ⟨_, kind, rest, config, parsedPkg, ha, hp, hl, hg⟩ := h1
  obtain ⟨_, kind2, rest2, config2, parsedPkg2, ha2, hp2, hl2, hg2⟩ := h2
  rw [ha] at ha2
  cases ha2
  rw [hp] at hp2
  cases hp2
  rw [hl] at hl2
  cases hl2
  rw [hg] at hg2
  cases hg2
  rfl

/-- C2, as stated, fails.  With an empty entity name and no positional
argument the `stmt` command returns the error of the argument validator, not
"No database entity given"; and when `packages.Load` gives an empty list and
a nil error, generation does not succeed, yet the `stmt` and the `method`
command return no error: they panic at `parsedPkg[0]`. -/
theorem mapper_commands_not_every_case_error :
    ((newDbMapperStmt.Execute sampleCollaborators "-" "" "" [] []).result =
        .returned (some (.errorf "requires at least 1 arg(s), only received 0")) ∧
      GoError.errorf "requires at least 1 arg(s), only received 0" ≠
        .errorf "No database entity given") ∧
    ((¬ ∃ text, Generates emptyLoadCollaborators emptyLoadCollaborators.NewStmt ""
        "network_forward" ["objects", "table=networks_forwards"] text) ∧
      (newDbMapperStmt.Execute emptyLoadCollaborators "-" "" "network_forward" []
        ["objects", "table=networks_forwards"]).result = .panicked ∧
      (newDbMapperMethod.Execute emptyLoadCollaborators "-" "" "network_forward" true []
        ["GetOne", "table=networks_forwards"]).result = .panicked) := by
  refine ⟨⟨by decide, by decide⟩, ?_, by decide, by decide⟩
  rintro ⟨text, _, kind, rest, config, parsedPkg, _, _, hl, _⟩
  cases hl

/-- C2, amended: for the `stmt` and for the `method` command, `file.Append`
is called exactly when generation succeeds (non-empty entity name,
`parseParams`, `packageLoad` and `db.NewStmt` or `db.NewMethod` all
succeeding), and then once, with the generated text; in every other case,
unless `packageLoad` is reached and panics, the command returns a non-nil
error, leaves the outside world as it was and appends nothing; with a kind
argument and an empty entity name that error is "No database entity given"
and no call at all has been made; without any positional argument it is the
error of the validator `cobra.MinimumNArgs(1)` and `RunE` does not run. -/
theorem mapper_commands_append_iff {Pkg σ : Type} (c : Collaborators Pkg σ)
    (target pkg entity : String) (iface : Bool) (w : σ) (args : List String) :
    ((appendCalls (newDbMapperStmt.Execute c target pkg entity w args).trace ≠ [] ↔
        ∃ text, Generates c c.NewStmt pkg entity args text) ∧
      (∀ text, Generates c c.NewStmt pkg entity args text →
        appendCalls (newDbMapperStmt.Execute c target pkg entity w args).trace =
          [(entity, target, text, false)] ∧
        (newDbMapperStmt.Execute c target pkg entity w args).result =
          .returned (c.Append w entity target text false).1 ∧
        (newDbMapperStmt.Execute c target pkg entity w args).state =
          (c.Append w entity target text false).2) ∧
      ((¬ ∃ text, Generates c c.NewStmt pkg entity args text) →
        ¬ LoadPanics c pkg entity args →
        ∃ err,
          (newDbMapperStmt.Execute c target pkg entity w args).result = .returned (some err) ∧
          (newDbMapperStmt.Execute c target pkg entity w args).state = w ∧
          appendCalls (newDbMapperStmt.Execute c target pkg entity w args).trace = []) ∧
      (entity = "" → args ≠ [] →
        newDbMapperStmt.Execute c target pkg entity w args =
          ⟨.returned (some (.errorf "No database entity given")), w, []⟩) ∧
      (args = [] →
        newDbMapperStmt.Execute c target pkg entity w args =
          ⟨.returned (some (.errorf "requires at least 1 arg(s), only received 0")), w,
            []⟩)) ∧
    ((appendCalls (newDbMapperMethod.Execute c target pkg entity iface w args).trace ≠ [] ↔
        ∃ text, Generates c c.NewMethod pkg entity args text) ∧
      (∀ text, Generates c c.NewMethod pkg entity args text →
        appendCalls (newDbMapperMethod.Execute c target pkg entity iface w args).trace =
          [(entity, target, text, iface)] ∧
        (newDbMapperMethod.Execute c target pkg entity iface w args).result =
          .returned (c.Append w entity target text iface).1 ∧
        (newDbMapperMethod.Execute c target pkg entity iface w args).state =
          (c.Append w entity target text iface).2) ∧
      ((¬ ∃ text, Generates c c.NewMethod pkg entity args text) →
        ¬ LoadPanics c pkg entity args →
        ∃ err,
          (newDbMapperMethod.Execute c target pkg entity iface w args).result =
            .returned (some err) ∧
          (newDbMapperMethod.Execute c target pkg entity iface w args).state = w ∧
          appendCalls (newDbMapperMethod.Execute c target pkg entity iface w args).trace = []) ∧
      (entity = "" → args ≠ [] →
        newDbMapperMethod.Execute c target pkg entity iface w args =
          ⟨.returned (some (.errorf "No database entity given")), w, []⟩) ∧
      (args = [] →
        newDbMapperMethod.Execute c target pkg entity iface w args =
          ⟨.returned (some (.errorf "requires at least 1 arg(s), only received 0")), w,
            []⟩)) := by
  have hv : MinimumNArgs 1 [] =
      some (.errorf "requires at least 1 arg(s), only received 0") := by decide
  have hs : ∀ text, Generates c c.NewStmt pkg entity args text →
      appendCalls (newDbMapperStmt.Execute c target pkg entity w args).trace =
          [(entity, target, text, false)] ∧
        (newDbMapperStmt.Execute c target pkg entity w args).result =
          .returned (c.Append w entity target text false).1 ∧
        (newDbMapperStmt.Execute c target pkg entity w args).state =
          (c.Append w entity target text false).2 := by
    rintro text ⟨he, kind, rest, config, parsedPkg, ha, hp, hl, hg⟩
    subst ha
    rw [stmt_run_of_generates c target pkg entity w kind rest config parsedPkg text he hp hl hg]
    exact ⟨rfl, rfl, rfl⟩
  have hm : ∀ text, Generates c c.NewMethod pkg entity args text →
      appendCalls (newDbMapperMethod.Execute c target pkg entity iface w args).trace =
          [(entity, target, text, iface)] ∧
        (newDbMapperMethod.Execute c target pkg entity iface w args).result =
          .returned (c.Append w entity target text iface).1 ∧
        (newDbMapperMethod.Execute c target pkg entity iface w args).state =
          (c.Append w entity target text iface).2 := by
    rintro text ⟨he, kind, rest, config, parsedPkg, ha, hp, hl, hg⟩
    subst ha
    rw [method_run_of_generates c target pkg entity iface w kind rest config parsedPkg text he
      hp hl hg]
    exact ⟨rfl, rfl, rfl⟩
  refine ⟨⟨⟨?_, ?_⟩, hs, ?_, ?_, ?_⟩, ⟨⟨?_, ?_⟩, hm, ?_, ?_, ?_⟩⟩
  · intro hne
    by_contra hc
    exact hne (appendCalls_eq_nil _
      (stmt_run_of_not_generates c target pkg entity w args hc).2.1)
  · rintro ⟨text, hg⟩
    rw [(hs text hg).1]
    simp
  · intro hc hn
    obtain ⟨h1, h2, h3⟩ := stmt_run_of_not_generates c target pkg entity w args hc
    obtain ⟨err, h4⟩ := h3 hn
    exact ⟨err, h4, h1, appendCalls_eq_nil _ h2⟩
  · intro he ha
    cases args with
    | nil => exact absurd rfl ha
    | cons kind rest =>
      simp [newDbMapperStmt.Execute, MinimumNArgs, newDbMapperStmt.RunE, he]
  · intro ha
    subst ha
    simp only [newDbMapperStmt.Execute, hv]
  · intro hne
    by_contra hc
    exact hne (appendCalls_eq_nil _
      (method_run_of_not_generates c target pkg entity iface w args hc).2.1)
  · rintro ⟨text, hg⟩
    rw [(hm text hg).1]
    simp
  · intro hc hn
    obtain ⟨h1, h2, h3⟩ := method_run_of_not_generates c target pkg entity iface w args hc
    obtain ⟨err, h4⟩ := h3 hn
    exact ⟨err, h4, h1, appendCalls_eq_nil _ h2⟩
  · intro he ha
    cases args with
    | nil => exact absurd rfl ha
    | cons kind rest =>
      simp [newDbMapperMethod.Execute, MinimumNArgs, newDbMapperMethod.RunE, he]
  · intro ha
    subst ha
    simp only [newDbMapperMethod.Execute, hv]

/-- A concrete instance: the first `stmt` directive of `network_forwards.go`
appends its statement once; with a parameter that is no `key=value` pair the
command returns an error and appends nothing. -/
theorem mapper_commands_append_iff_witness :
    (Generates sampleCollaborators sampleCollaborators.NewStmt "" "network_forward"
        ["objects", "table=networks_forwards"] "network_forward:objects" ∧
      appendCalls (newDbMapperStmt.Execute sampleCollaborators "-" "" "network_forward" []
          ["objects", "table=networks_forwards"]).trace =
        [("network_forward", "-", "network_forward:objects", false)]) ∧
    ((¬ ∃ text, Generates sampleCollaborators sampleCollaborators.NewStmt "" "network_forward"
        ["objects", "table"] text) ∧
      ¬ LoadPanics sampleCollaborators "" "network_forward" ["objects", "table"] ∧
      ∃ err,
        (newDbMapperStmt.Execute sampleCollaborators "-" "" "network_forward" []
          ["objects", "table"]).result = .returned (some err) ∧
        (newDbMapperStmt.Execute sampleCollaborators "-" "" "network_forward" []
          ["objects", "table"]).state = [] ∧
        appendCalls (newDbMapperStmt.Execute sampleCollaborators "-" "" "network_forward" []
          ["objects", "table"]).trace = []) :=
  have hg : Generates sampleCollaborators sampleCollaborators.NewStmt "" "network_forward"
      ["objects", "table=networks_forwards"] "network_forward:objects" :=
    ⟨by decide, "objects", ["table=networks_forwards"], some [("table", "networks_forwards")], (),
      rfl, rfl, rfl, rfl⟩
  have hn : ¬ ∃ text, Generates sampleCollaborators sampleCollaborators.NewStmt ""
      "network_forward" ["objects", "table"] text := by
    rintro ⟨text, _, kind, rest, config, parsedPkg, ha, hp, _, _⟩
    cases ha
    cases hp
  have hl : ¬ LoadPanics sampleCollaborators "" "network_forward" ["objects", "table"] := by
    rintro ⟨_, kind, rest, config, _, _, hl⟩
    cases hl
  ⟨⟨hg,
    ((mapper_commands_append_iff sampleCollaborators "-" "" "network_forward" true []
      ["objects", "table=networks_forwards"]).1.2.1 "network_forward:objects" hg).1⟩,
   hn, hl,
   (mapper_commands_append_iff sampleCollaborators "-" "" "network_forward" true []
      ["objects", "table"]).1.2.2.1 hn hl⟩

/-- C7: every `file.Append` call of the `method` command has the entity name,
the target, the text that `db.NewMethod` returned for the entity, `args[0]`
and the parsed parameters, and as last argument the value of the
`--interface` flag; every `file.Append` call of the `stmt` command has the
entity name, the target, the text that `db.NewStmt` returned, and `false` as
last argument; and on success that call is made, last. -/
theorem interface_flag_passed_unchanged {Pkg σ : Type} (c : Collaborators Pkg σ)
    (target pkg entity : String) (iface : Bool) (w : σ) (args : List String) :
    (∀ e t x i,
      Event.Append e t x i ∈
        (newDbMapperMethod.Execute c target pkg entity iface w args).trace →
      e = entity ∧ t = target ∧ i = iface ∧ Generates c c.NewMethod pkg entity args x) ∧
    (∀ text, Generates c c.NewMethod pkg entity args text →
      (newDbMapperMethod.Execute c target pkg entity iface w args).trace.getLast? =
        some (.Append entity target text iface)) ∧
    (∀ e t x i,
      Event.Append e t x i ∈ (newDbMapperStmt.Execute c target pkg entity w args).trace →
      e = entity ∧ t = target ∧ i = false ∧ Generates c c.NewStmt pkg entity args x) ∧
    (∀ text, Generates c c.NewStmt pkg entity args text →
      (newDbMapperStmt.Execute c target pkg entity w args).trace.getLast? =
        some (.Append entity target text false)) := by
  refine ⟨?_, ?_, ?_, ?_⟩
  · intro e t x i hmem
    by_cases hg : ∃ text, Generates c c.NewMethod pkg entity args text
    · obtain ⟨text, hgen⟩ := hg
      obtain ⟨he, kind, rest, config, parsedPkg, ha, hp, hl, hn⟩ := hgen
      subst ha
      rw [method_run_of_generates c target pkg entity iface w kind rest config parsedPkg text he
        hp hl hn] at hmem
      simp at hmem
      obtain ⟨h1, h2, h3, h4⟩ := hmem
      subst h1 h2 h3 h4
      exact ⟨rfl, rfl, rfl, he, kind, rest, config, parsedPkg, rfl, hp, hl, hn⟩
    · exact absurd hmem
        ((method_run_of_not_generates c target pkg entity iface w args hg).2.1 e t x i)
  · rintro text ⟨he, kind, rest, config, parsedPkg, ha, hp, hl, hn⟩
    subst ha
    rw [method_run_of_generates c target pkg entity iface w kind rest config parsedPkg text he
      hp hl hn]
    rfl
  · intro e t x i hmem
    by_cases hg : ∃ text, Generates c c.NewStmt pkg entity args text
    · obtain ⟨text, hgen⟩ := hg
      obtain ⟨he, kind, rest, config, parsedPkg, ha, hp, hl, hn⟩ := hgen
      subst ha
      rw [stmt_run_of_generates c target pkg entity w kind rest config parsedPkg text he
        hp hl hn] at hmem
      simp at hmem
      obtain ⟨h1, h2, h3, h4⟩ := hmem
      subst h1 h2 h3 h4
      exact ⟨rfl, rfl, rfl, he, kind, rest, config, parsedPkg, rfl, hp, hl, hn⟩
    · exact absurd hmem
        ((stmt_run_of_not_generates c target pkg entity w args hg).2.1 e t x i)
  · rintro text ⟨he, kind, rest, config, parsedPkg, ha, hp, hl, hn⟩
    subst ha
    rw [stmt_run_of_generates c target pkg entity w kind rest config parsedPkg text he
      hp hl hn]
    rfl

/-- A concrete instance: the `GetMany` directive
of `network_forwards.go`, run with `-i`, passes `true` to `file.Append`. -/
theorem interface_flag_passed_unchanged_witness :
    Generates sampleCollaborators sampleCollaborators.NewMethod "" "network_forward"
        ["GetMany", "references=Config", "table=networks_forwards"] "network_forward:GetMany" ∧
      (newDbMapperMethod.Execute sampleCollaborators "-" "" "network_forward" true []
          ["GetMany", "references=Config", "table=networks_forwards"]).trace.getLast? =
        some (.Append "network_forward" "-" "network_forward:GetMany" true) :=
  have hg : Generates sampleCollaborators sampleCollaborators.NewMethod "" "network_forward"
      ["GetMany", "references=Config", "table=networks_forwards"] "network_forward:GetMany" :=
    ⟨by decide, "GetMany", ["references=Config", "table=networks_forwards"],
      some [("references", "Config"), ("table", "networks_forwards")], (), rfl, rfl, rfl, rfl⟩
  ⟨hg,
   (interface_flag_passed_unchanged sampleCollaborators "-" "" "network_forward" true []
      ["GetMany", "references=Config", "table=networks_forwards"]).2.1
      "network_forward:GetMany" hg⟩

/-! ## Theorems: the directives and the entity declaration -/

/-- C4, as stated, fails: the directives declare three `objects` variants,
not `2 ^ 4`, and no declared `objects` statement matches a filter in which
only `ID` is present. -/
theorem declared_objects_not_every_subset :
    (declaredVariants "stmt" "network_forward" "objects").length = 3 ∧
    (declaredVariants "stmt" "network_forward" "objects").length ≠
      2 ^ NetworkForwardFilter.fieldNames.length - 1 + 1 ∧
    ¬ ∃ v ∈ declaredVariants "stmt" "network_forward" "objects",
        Matches v ⟨some 1, none, none, none⟩ := by
  decide

/-- C4, amended: the declared `objects` variants are the unconditional one,
the one by `NetworkID` and the one by `NetworkID` and `ListenAddress`; each
names fields of `NetworkForwardFilter` only and is matched by some
combination of present fields; for every combination at most one declared
variant matches, and one does exactly when the present fields are none,
`NetworkID`, or `NetworkID` and `ListenAddress`. -/
theorem declared_objects_variants :
    declaredVariants "stmt" "network_forward" "objects" =
      [[], ["NetworkID"], ["NetworkID", "ListenAddress"]] ∧
    (∀ v ∈ declaredVariants "stmt" "network_forward" "objects",
      ∀ name ∈ v, name ∈ NetworkForwardFilter.fieldNames) ∧
    (∀ v ∈ declaredVariants "stmt" "network_forward" "objects",
      ∃ id networkID nodeID listenAddress,
        MatchesFields v (presentFields id networkID nodeID listenAddress)) ∧
    (∀ f : NetworkForwardFilter,
      ∀ v1 ∈ declaredVariants "stmt" "network_forward" "objects",
      ∀ v2 ∈ declaredVariants "stmt" "network_forward" "objects",
        Matches v1 f → Matches v2 f → v1 = v2) ∧
    (∀ f : NetworkForwardFilter,
      (∃ v ∈ declaredVariants "stmt" "network_forward" "objects", Matches v f) ↔
        f.present = [] ∨ f.present = ["NetworkID"] ∨
          f.present = ["NetworkID", "ListenAddress"]) := by
  have h1 : ∀ id networkID nodeID listenAddress : Bool,
      ∀ v1 ∈ declaredVariants "stmt" "network_forward" "objects",
      ∀ v2 ∈ declaredVariants "stmt" "network_forward" "objects",
        MatchesFields v1 (presentFields id networkID nodeID listenAddress) →
        MatchesFields v2 (presentFields id networkID nodeID listenAddress) → v1 = v2 := by
    decide
  have h2 : ∀ id networkID nodeID listenAddress : Bool,
      (∃ v ∈ declaredVariants "stmt" "network_forward" "objects",
          MatchesFields v (presentFields id networkID nodeID listenAddress)) ↔
        presentFields id networkID nodeID listenAddress = [] ∨
          presentFields id networkID nodeID listenAddress = ["NetworkID"] ∨
          presentFields id networkID nodeID listenAddress = ["NetworkID", "ListenAddress"] := by
    decide
  refine ⟨by decide, by decide, by decide, ?_, ?_⟩
  · intro f
    exact h1 f.ID.isSome f.NetworkID.isSome f.NodeID.isSome f.ListenAddress.isSome
  · intro f
    exact h2 f.ID.isSome f.NetworkID.isSome f.NodeID.isSome f.ListenAddress.isSome

/-- A concrete instance: a filter by network and listen address is matched
by a declared variant. -/
theorem declared_objects_variants_witness :
    (⟨none, some 3, none, some "192.0.2.1"⟩ : NetworkForwardFilter).present =
        ["NetworkID", "ListenAddress"] ∧
      ∃ v ∈ declaredVariants "stmt" "network_forward" "objects",
        Matches v ⟨none, some 3, none, some "192.0.2.1"⟩ :=
  ⟨by decide,
   (declared_objects_variants.2.2.2.2 ⟨none, some 3, none, some "192.0.2.1"⟩).2
     (Or.inr (Or.inr (by decide)))⟩

/-- C6: the declaration of `NetworkForward` is a valid entity: every `db` tag
is a sequence of `key=value` pairs joined by `&` with keys of the tag
language, no key twice, and `omit` values among `create` and `update`; some
field is primary; the column names are pairwise distinct; and the filter
fields named by the `-by-...` directives of `network_forward`, which are
`NetworkID`, `ListenAddress` and `ID`, are fields of `NetworkForward`. -/
theorem NetworkForward_valid_entity :
    (∀ f ∈ NetworkForward.fields, f.WellTagged) ∧
    (∃ f ∈ NetworkForward.fields, f.isPrimary = true) ∧
    (NetworkForward.fields.map Field.columnName).Nodup ∧
    (∀ name ∈ namedFilterFields "network_forward",
      name ∈ NetworkForward.fields.map Field.name) ∧
    (∀ name, name ∈ namedFilterFields "network_forward" ↔
      name ∈ ["NetworkID", "ListenAddress", "ID"]) := by
  refine ⟨?_, by decide, by decide, by decide, ?_⟩
  · intro f hf
    simp only [NetworkForward.fields, List.mem_cons, List.mem_singleton, List.not_mem_nil,
      or_false] at hf
    rcases hf with rfl | rfl | rfl | rfl | rfl | rfl | rfl
    · exact ⟨[], by decide, by decide, by decide, by decide⟩
    · exact ⟨[("primary", "yes"), ("column", "network_id")],
        by decide, by decide, by decide, by decide⟩
    · exact ⟨[("column", "node_id"), ("nullable", "true")],
        by decide, by decide, by decide, by decide⟩
    · exact ⟨[("leftjoin", "nodes.name"), ("omit", "create,update")],
        by decide, by decide, by decide, by decide⟩
    · exact ⟨[("primary", "yes")], by decide, by decide, by decide, by decide⟩
    · exact ⟨[], by decide, by decide, by decide, by decide⟩
    · exact ⟨[("marshal", "json")], by decide, by decide, by decide, by decide⟩
  · intro name
    have h : namedFilterFields "network_forward" =
        ["NetworkID", "NetworkID", "ListenAddress", "NetworkID", "ID", "NetworkID", "ID"] := by
      decide
    rw [h]
    simp only [List.mem_cons, List.mem_singleton, List.not_mem_nil, or_false]
    tauto

/-- A concrete instance: the tag of `Location`, with its `omit` list, is well
formed. -/
theorem NetworkForward_valid_entity_witness :
    (⟨"Location", "*string", some "leftjoin=nodes.name&omit=create,update"⟩ : Field) ∈
        NetworkForward.fields ∧
      (⟨"Location", "*string", some "leftjoin=nodes.name&omit=create,update"⟩ :
        Field).WellTagged :=
  ⟨by decide, NetworkForward_valid_entity.1 _ (by decide)⟩

end Incus
